import Mathlib

/-!
Verification of the Perlin-noise synthesizer in `src/main.cpp`.

The C++ code works on `float`; we embed its arithmetic over `ℚ` (exact
rational arithmetic, the idealized semantics of the formulas in the code).
The gradient grid `std::vector<std::vector<std::pair<float,float>>>`,
indexed as `gradients[iy][ix]`, is abstracted as a total access function
`ℤ → ℤ → ℚ × ℚ` (first argument `iy`, second `ix`, matching the source's
index order); in-bounds restrictions appear as hypotheses of the theorems.
The row-by-row construction loop of `WinMain` is embedded separately over
lists, threading the random generator state explicitly.
-/

namespace PerlinNoise

/-- Embeds `fade` (src/main.cpp line 17): the quintic smoothing curve,
written exactly as in the source. -/
def fade (t : ℚ) : ℚ :=
  t * t * t * (t * (t * 6 - 15) + 10)

/-- Embeds `lerp` (src/main.cpp line 32): linear interpolation. -/
def lerp (a b t : ℚ) : ℚ :=
  a + t * (b - a)

/-- The C cast `(int)x` for a `float` value: truncation toward zero. -/
def truncToInt (q : ℚ) : ℤ :=
  if 0 ≤ q then ⌊q⌋ else ⌈q⌉

/-- Embeds `dotGridGradient` (src/main.cpp line 39): dot product of the
displacement from grid vertex `(ix, iy)` to the query `(x, y)` with the
gradient stored at that vertex (the source reads `gradients[iy][ix]`). -/
def dotGridGradient (ix iy : ℤ) (x y : ℚ) (gradients : ℤ → ℤ → ℚ × ℚ) : ℚ :=
  let dx := x - (ix : ℚ)
  let dy := y - (iy : ℚ)
  let grad := gradients iy ix
  dx * grad.1 + dy * grad.2

/-- Embeds `perlin` (src/main.cpp line 54): single-octave Perlin noise.
`(int)x` is the C float-to-int cast, i.e. `truncToInt`. -/
def perlin (x y : ℚ) (gradients : ℤ → ℤ → ℚ × ℚ) : ℚ :=
  let x0 := truncToInt x
  let y0 := truncToInt y
  let x1 := x0 + 1
  let y1 := y0 + 1
  let sx := fade (x - (x0 : ℚ))
  let sy := fade (y - (y0 : ℚ))
  let n0 := dotGridGradient x0 y0 x y gradients
  let n1 := dotGridGradient x1 y0 x y gradients
  let ix0 := lerp n0 n1 sx
  let n2 := dotGridGradient x0 y1 x y gradients
  let n3 := dotGridGradient x1 y1 x y gradients
  let ix1 := lerp n2 n3 sx
  lerp ix0 ix1 sy

/-- The loop state of `fractalPerlin` (src/main.cpp lines 85-88). -/
structure FractalState where
  total : ℚ
  frequency : ℚ
  amplitude : ℚ
  maxValue : ℚ
deriving DecidableEq

/-- One iteration of the octave loop of `fractalPerlin`
(src/main.cpp lines 90-112), with the source's constants `PERSISTENCE`
and `2.0f` as parameters `persistence` and `frequencyMultiplier`. -/
def octaveStep (persistence frequencyMultiplier x y : ℚ)
    (g : ℤ → ℤ → ℚ × ℚ) (s : FractalState) : FractalState :=
  { total := s.total + perlin (x * s.frequency) (y * s.frequency) g * s.amplitude
    maxValue := s.maxValue + s.amplitude
    amplitude := s.amplitude * persistence
    frequency := s.frequency * frequencyMultiplier }

/-- State after `n` iterations of the octave loop, starting from
`total = 0`, `frequency = 1`, `amplitude = 1`, `maxValue = 0`. -/
def octaveLoop (persistence frequencyMultiplier x y : ℚ)
    (g : ℤ → ℤ → ℚ × ℚ) : ℕ → FractalState
  | 0 => ⟨0, 1, 1, 0⟩
  | n + 1 =>
      octaveStep persistence frequencyMultiplier x y g
        (octaveLoop persistence frequencyMultiplier x y g n)

/-- Embeds `fractalPerlin` (src/main.cpp line 82) with the octave count,
persistence and frequency multiplier as parameters (the spec's
`composeFractal`); the source instantiates them with its constants. -/
def fractalPerlinP (octaveCount : ℕ) (persistence frequencyMultiplier x y : ℚ)
    (g : ℤ → ℤ → ℚ × ℚ) : ℚ :=
  let s := octaveLoop persistence frequencyMultiplier x y g octaveCount
  s.total / s.maxValue

/-- `OCTAVES` (src/main.cpp line 12). -/
def OCTAVES : ℕ := 5

/-- `PERSISTENCE` (src/main.cpp line 13). -/
def PERSISTENCE : ℚ := 1 / 2

/-- `WIDTH` (src/main.cpp line 7). -/
def WIDTH : ℕ := 1280

/-- `HEIGHT` (src/main.cpp line 8). -/
def HEIGHT : ℕ := 720

/-- `GRID_SIZE` (src/main.cpp line 9). -/
def GRID_SIZE : ℕ := 40

/-- `fractalPerlin` exactly as the source calls it: 5 octaves,
persistence 0.5, frequency multiplier 2.0. -/
def fractalPerlin (x y : ℚ) (g : ℤ → ℤ → ℚ × ℚ) : ℚ :=
  fractalPerlinP OCTAVES PERSISTENCE 2 x y g

/-- The remap `(n + 1) / 2` applied in `WinMain` (src/main.cpp line 179). -/
def remap (n : ℚ) : ℚ :=
  (n + 1) / 2

/- ### Basic facts about the octave loop -/

theorem octaveLoop_amplitude (p m x y : ℚ) (g : ℤ → ℤ → ℚ × ℚ) (n : ℕ) :
    (octaveLoop p m x y g n).amplitude = p ^ n := by
  induction n with
  | zero => simp [octaveLoop]
  | succ n ih => simp [octaveLoop, octaveStep, ih, pow_succ]

theorem octaveLoop_frequency (p m x y : ℚ) (g : ℤ → ℤ → ℚ × ℚ) (n : ℕ) :
    (octaveLoop p m x y g n).frequency = m ^ n := by
  induction n with
  | zero => simp [octaveLoop]
  | succ n ih => simp [octaveLoop, octaveStep, ih, pow_succ]

theorem octaveLoop_maxValue (p m x y : ℚ) (g : ℤ → ℤ → ℚ × ℚ) (n : ℕ) :
    (octaveLoop p m x y g n).maxValue = ∑ i ∈ Finset.range n, p ^ i := by
  induction n with
  | zero => simp [octaveLoop]
  | succ n ih =>
      rw [Finset.sum_range_succ]
      simp [octaveLoop, octaveStep, ih, octaveLoop_amplitude]

theorem octaveLoop_total (p m x y : ℚ) (g : ℤ → ℤ → ℚ × ℚ) (n : ℕ) :
    (octaveLoop p m x y g n).total =
      ∑ i ∈ Finset.range n, perlin (x * m ^ i) (y * m ^ i) g * p ^ i := by
  induction n with
  | zero => simp [octaveLoop]
  | succ n ih =>
      rw [Finset.sum_range_succ]
      simp [octaveLoop, octaveStep, ih, octaveLoop_amplitude, octaveLoop_frequency]

/- ### Facts about fade and the truncating cast -/

theorem truncToInt_eq_floor (q : ℚ) (h : 0 ≤ q) : truncToInt q = ⌊q⌋ := by
  simp [truncToInt, h]

theorem fade_monotone (s t : ℚ) (hs : 0 ≤ s) (hst : s ≤ t) (ht : t ≤ 1) :
    fade s ≤ fade t := by
  have hb : 0 ≤ t - s := sub_nonneg.2 hst
  have hc : 0 ≤ 1 - t := sub_nonneg.2 ht
  have key : fade t - fade s =
      10*((t-s)^3*(1-t)^2) + 5*((t-s)^4*(1-t)) + (t-s)^5
      + 30*(s*(t-s)^2*(1-t)^2) + 20*(s*(t-s)^3*(1-t)) + 5*(s*(t-s)^4)
      + 30*(s^2*(t-s)*(1-t)^2) + 30*(s^2*(t-s)^2*(1-t)) + 10*(s^2*(t-s)^3) := by
    unfold fade; ring
  have m1 : 0 ≤ (t-s)^3*(1-t)^2 := mul_nonneg (pow_nonneg hb 3) (sq_nonneg _)
  have m2 : 0 ≤ (t-s)^4*(1-t) := mul_nonneg (pow_nonneg hb 4) hc
  have m3 : 0 ≤ (t-s)^5 := pow_nonneg hb 5
  have m4 : 0 ≤ s*(t-s)^2*(1-t)^2 := mul_nonneg (mul_nonneg hs (sq_nonneg _)) (sq_nonneg _)
  have m5 : 0 ≤ s*(t-s)^3*(1-t) := mul_nonneg (mul_nonneg hs (pow_nonneg hb 3)) hc
  have m6 : 0 ≤ s*(t-s)^4 := mul_nonneg hs (pow_nonneg hb 4)
  have m7 : 0 ≤ s^2*(t-s)*(1-t)^2 := mul_nonneg (mul_nonneg (sq_nonneg s) hb) (sq_nonneg _)
  have m8 : 0 ≤ s^2*(t-s)^2*(1-t) := mul_nonneg (mul_nonneg (sq_nonneg s) (sq_nonneg _)) hc
  have m9 : 0 ≤ s^2*(t-s)^3 := mul_nonneg (sq_nonneg s) (pow_nonneg hb 3)
  linarith

theorem fade_nonneg (t : ℚ) (ht : 0 ≤ t) : 0 ≤ fade t := by
  have key : fade t = t^3 * (6*t^2 - 15*t + 10) := by unfold fade; ring
  nlinarith [pow_nonneg ht 3, sq_nonneg (4*t - 5)]

theorem fade_le_one (t : ℚ) (ht : 0 ≤ t) (ht1 : t ≤ 1) : fade t ≤ 1 := by
  have key : (1 : ℚ) - fade t = (1-t)^3 * (6*t^2 + 3*t + 1) := by unfold fade; ring
  nlinarith [pow_nonneg (sub_nonneg.2 ht1) 3, sq_nonneg t, mul_nonneg ht ht]

/-- The interpolation weight `(1 - fade t) * t + fade t * (1 - t)` never
exceeds one half on the unit interval; this is the key to the range bound. -/
theorem fade_mix_le_half (t : ℚ) (ht : 0 ≤ t) (ht1 : t ≤ 1) :
    (1 - fade t) * t + fade t * (1 - t) ≤ 1/2 := by
  have key : (1 - fade t)*t + fade t*(1-t) - 1/2 =
      -((2*t-1)^2 * (6*t^2*(t-1)^2 + 2*t*(1-t) + 1))/2 := by unfold fade; ring
  nlinarith [sq_nonneg (2*t-1), sq_nonneg (t*(t-1)), mul_nonneg ht (sub_nonneg.2 ht1),
    mul_nonneg (sq_nonneg (2*t-1)) (mul_nonneg ht (sub_nonneg.2 ht1)),
    mul_nonneg (sq_nonneg (2*t-1)) (sq_nonneg (t*(t-1)))]

/- ### Claim theorems: C8, C7, C5, C2 -/

/-- Claim C8: the smoothing function `fade(t) = t*t*t*(t*(t*6 - 15) + 10)`
equals the quintic `6t^5 - 15t^4 + 10t^3`, and on `[0, 1]` it is
monotonically non-decreasing with `fade 0 = 0`, `fade 1 = 1` and
`fade (1/2) = 1/2`. -/
theorem fade_spec :
    (∀ t : ℚ, fade t = 6*t^5 - 15*t^4 + 10*t^3) ∧
    (∀ s t : ℚ, 0 ≤ s → s ≤ t → t ≤ 1 → fade s ≤ fade t) ∧
    fade 0 = 0 ∧ fade 1 = 1 ∧ fade (1/2) = 1/2 := by
  refine ⟨fun t => by unfold fade; ring, fade_monotone, by norm_num [fade],
    by norm_num [fade], by norm_num [fade]⟩

/-- Witness for C8: the monotonicity part applied at `s = 0`, `t = 1/2`. -/
theorem fade_spec_witness :
    ((0:ℚ) ≤ 0 ∧ (0:ℚ) ≤ 1/2 ∧ (1/2:ℚ) ≤ 1) ∧ fade 0 ≤ fade (1/2) :=
  ⟨⟨le_refl 0, by norm_num, by norm_num⟩,
    fade_spec.2.1 0 (1/2) (le_refl 0) (by norm_num) (by norm_num)⟩

/-- Claim C7: the dot-gradient influence evaluated at its own vertex is
exactly `0` for every vertex and every grid, and sampling at `(0, 0)`
returns exactly `0` before the remap and exactly `1/2` after it. -/
theorem vertex_contribution_zero :
    (∀ (ix iy : ℤ) (g : ℤ → ℤ → ℚ × ℚ), dotGridGradient ix iy (ix:ℚ) (iy:ℚ) g = 0) ∧
    (∀ g : ℤ → ℤ → ℚ × ℚ, perlin 0 0 g = 0 ∧ remap (perlin 0 0 g) = 1/2) := by
  constructor
  · intro ix iy g
    simp [dotGridGradient]
  · intro g
    have h : perlin 0 0 g = 0 := by
      simp [perlin, truncToInt, fade, lerp, dotGridGradient]
    exact ⟨h, by rw [h]; norm_num [remap]⟩

/-- Claim C5: the fractal composer with a single octave coincides with a
single noise-sampler call: the total reduces to `perlin x y g * 1` and the
normalizer `maxValue` reduces to `1`. -/
theorem single_octave_equivalence (p m x y : ℚ) (g : ℤ → ℤ → ℚ × ℚ) :
    fractalPerlinP 1 p m x y g = perlin x y g := by
  simp [fractalPerlinP, octaveLoop, octaveStep]

/-- Claim C2: for `octaveCount ≥ 1` and `persistence > 0` the fractal
composer returns the amplitude-weighted sum of samples at geometrically
scaled frequencies, divided by the sum of the amplitudes; and with the
source's 5 octaves and persistence `1/2` the normalizing divisor equals
exactly `1 + 1/2 + 1/4 + 1/8 + 1/16 = 31/16 = 1.9375`. -/
theorem fractal_closed_form (oc : ℕ) (p m x y : ℚ) (g : ℤ → ℤ → ℚ × ℚ)
    (hoc : 1 ≤ oc) (hp : 0 < p) :
    fractalPerlinP oc p m x y g =
      (∑ i ∈ Finset.range oc, p ^ i * perlin (x * m ^ i) (y * m ^ i) g) /
        (∑ i ∈ Finset.range oc, p ^ i) ∧
    (octaveLoop PERSISTENCE 2 x y g OCTAVES).maxValue =
      1 + 1/2 + 1/4 + 1/8 + 1/16 := by
  constructor
  · rw [fractalPerlinP, octaveLoop_total, octaveLoop_maxValue]
    congr 1
    exact Finset.sum_congr rfl (fun i _ => mul_comm _ _)
  · rw [octaveLoop_maxValue]
    norm_num [PERSISTENCE, OCTAVES, Finset.sum_range_succ]

/-- Witness for C2 at `octaveCount = 1`, `persistence = 1`. -/
theorem fractal_closed_form_witness :
    (1 ≤ 1 ∧ (0:ℚ) < 1) ∧
    (fractalPerlinP 1 1 1 0 0 (fun _ _ => (0,0)) =
      (∑ i ∈ Finset.range 1, (1:ℚ) ^ i * perlin (0 * 1 ^ i) (0 * 1 ^ i) (fun _ _ => (0,0))) /
        (∑ i ∈ Finset.range 1, (1:ℚ) ^ i) ∧
     (octaveLoop PERSISTENCE 2 0 0 (fun _ _ => (0,0)) OCTAVES).maxValue =
       1 + 1/2 + 1/4 + 1/8 + 1/16) :=
  ⟨⟨le_refl 1, by norm_num⟩, fractal_closed_form 1 1 1 0 0 (fun _ _ => (0,0)) (le_refl 1) (by norm_num)⟩

/- ### Claim C1: the sampler agrees with the reference computation -/

/-- The reference computation of the spec (§4.2), written from the spec's
words: corner indices via `⌊·⌋`, four dot-gradient influences written out
as displacement-dot-gradient, then the double lerp. -/
def perlinRef (x y : ℚ) (g : ℤ → ℤ → ℚ × ℚ) : ℚ :=
  let x0 : ℤ := ⌊x⌋
  let y0 : ℤ := ⌊y⌋
  let x1 : ℤ := x0 + 1
  let y1 : ℤ := y0 + 1
  let sx := fade (x - (x0:ℚ))
  let sy := fade (y - (y0:ℚ))
  let n0 := (x - (x0:ℚ)) * (g y0 x0).1 + (y - (y0:ℚ)) * (g y0 x0).2
  let n1 := (x - (x1:ℚ)) * (g y0 x1).1 + (y - (y0:ℚ)) * (g y0 x1).2
  let n2 := (x - (x0:ℚ)) * (g y1 x0).1 + (y - (y1:ℚ)) * (g y1 x0).2
  let n3 := (x - (x1:ℚ)) * (g y1 x1).1 + (y - (y1:ℚ)) * (g y1 x1).2
  lerp (lerp n0 n1 sx) (lerp n2 n3 sx) sy

/-- Claim C1: for every query with `⌊x⌋ ≥ 0`, `⌊y⌋ ≥ 0`, `⌊x⌋ + 1 <
gridWidth` and `⌊y⌋ + 1 < gridHeight`, `perlin` returns exactly the
reference computation of the spec. -/
theorem perlin_eq_reference (x y : ℚ) (g : ℤ → ℤ → ℚ × ℚ) (gridWidth gridHeight : ℤ)
    (hfx : 0 ≤ ⌊x⌋) (hfy : 0 ≤ ⌊y⌋)
    (hxW : ⌊x⌋ + 1 < gridWidth) (hyH : ⌊y⌋ + 1 < gridHeight) :
    perlin x y g = perlinRef x y g := by
  have hx : (0:ℚ) ≤ x := Int.floor_nonneg.1 hfx
  have hy : (0:ℚ) ≤ y := Int.floor_nonneg.1 hfy
  simp only [perlin, perlinRef, dotGridGradient,
    truncToInt_eq_floor x hx, truncToInt_eq_floor y hy]

/-- Witness for C1 at `(x, y) = (1/2, 1/2)` on a 2×2 grid. -/
theorem perlin_eq_reference_witness :
    (0 ≤ ⌊(1/2:ℚ)⌋ ∧ ⌊(1/2:ℚ)⌋ + 1 < 2) ∧
    perlin (1/2) (1/2) (fun _ _ => (1, 0)) = perlinRef (1/2) (1/2) (fun _ _ => (1, 0)) :=
  ⟨⟨by norm_num, by norm_num⟩,
    perlin_eq_reference (1/2) (1/2) (fun _ _ => (1, 0)) 2 2
      (by norm_num) (by norm_num) (by norm_num) (by norm_num)⟩

/- ### Claim C10: the sampler reads only the four corner gradients -/

/-- Claim C10: for an in-bounds query, the sampler depends only on the
gradients stored at the four corners of the enclosing cell: two grids that
agree there give equal samples, however they differ elsewhere. -/
theorem sampler_locality (x y : ℚ) (g₁ g₂ : ℤ → ℤ → ℚ × ℚ)
    (hfx : 0 ≤ ⌊x⌋) (hfy : 0 ≤ ⌊y⌋)
    (h00 : g₁ ⌊y⌋ ⌊x⌋ = g₂ ⌊y⌋ ⌊x⌋)
    (h10 : g₁ ⌊y⌋ (⌊x⌋ + 1) = g₂ ⌊y⌋ (⌊x⌋ + 1))
    (h01 : g₁ (⌊y⌋ + 1) ⌊x⌋ = g₂ (⌊y⌋ + 1) ⌊x⌋)
    (h11 : g₁ (⌊y⌋ + 1) (⌊x⌋ + 1) = g₂ (⌊y⌋ + 1) (⌊x⌋ + 1)) :
    perlin x y g₁ = perlin x y g₂ := by
  have hx : (0:ℚ) ≤ x := Int.floor_nonneg.1 hfx
  have hy : (0:ℚ) ≤ y := Int.floor_nonneg.1 hfy
  simp only [perlin, dotGridGradient, truncToInt_eq_floor x hx,
    truncToInt_eq_floor y hy, h00, h10, h01, h11]

/-- Witness for C10: two grids that agree on the cell at the origin but
differ at negative indices give the same sample at `(1/2, 1/2)`. -/
theorem sampler_locality_witness :
    (0 ≤ ⌊(1/2:ℚ)⌋ ∧
      (fun (_ _ : ℤ) => ((1:ℚ), (2:ℚ))) (⌊(1/2:ℚ)⌋) (⌊(1/2:ℚ)⌋) =
      (fun (iy ix : ℤ) => if iy + ix < 0 then ((7:ℚ), (7:ℚ)) else ((1:ℚ), (2:ℚ)))
        (⌊(1/2:ℚ)⌋) (⌊(1/2:ℚ)⌋)) ∧
    perlin (1/2) (1/2) (fun _ _ => (1, 2)) =
      perlin (1/2) (1/2) (fun iy ix => if iy + ix < 0 then (7, 7) else (1, 2)) :=
  ⟨⟨by norm_num, by norm_num⟩,
    sampler_locality (1/2) (1/2) _ _ (by norm_num) (by norm_num)
      (by norm_num) (by norm_num) (by norm_num) (by norm_num)⟩

/- ### Claim C6: range bounds -/

/-- One field value of the source pipeline (src/main.cpp lines 174-179):
fractal noise at `(px / GRID_SIZE, py / GRID_SIZE)`, remapped by
`(n + 1) / 2`. -/
def fieldValue (g : ℤ → ℤ → ℚ × ℚ) (px py : ℕ) : ℚ :=
  remap (fractalPerlin ((px:ℚ) / (GRID_SIZE:ℚ)) ((py:ℚ) / (GRID_SIZE:ℚ)) g)

theorem abs_lerp_le (u v t cu cv : ℚ) (ht : 0 ≤ t) (ht1 : t ≤ 1)
    (hu : |u| ≤ cu) (hv : |v| ≤ cv) :
    |lerp u v t| ≤ (1 - t) * cu + t * cv := by
  have he : lerp u v t = (1 - t) * u + t * v := by unfold lerp; ring
  rw [he]
  calc |(1 - t) * u + t * v| ≤ |(1 - t) * u| + |t * v| := abs_add _ _
    _ = (1 - t) * |u| + t * |v| := by
        rw [abs_mul, abs_mul, abs_of_nonneg (by linarith : (0:ℚ) ≤ 1 - t), abs_of_nonneg ht]
    _ ≤ (1 - t) * cu + t * cv := by
        exact add_le_add (mul_le_mul_of_nonneg_left hu (by linarith))
          (mul_le_mul_of_nonneg_left hv ht)

theorem abs_dot_le (dx dy gx gy cx cy : ℚ) (hg : gx ^ 2 + gy ^ 2 = 1)
    (hdx : |dx| ≤ cx) (hdy : |dy| ≤ cy) :
    |dx * gx + dy * gy| ≤ cx + cy := by
  have hgx : |gx| ≤ 1 := (sq_le_one_iff_abs_le_one gx).1 (by nlinarith [sq_nonneg gy])
  have hgy : |gy| ≤ 1 := (sq_le_one_iff_abs_le_one gy).1 (by nlinarith [sq_nonneg gx])
  calc |dx * gx + dy * gy| ≤ |dx * gx| + |dy * gy| := abs_add _ _
    _ = |dx| * |gx| + |dy| * |gy| := by rw [abs_mul, abs_mul]
    _ ≤ cx * 1 + cy * 1 := by
        exact add_le_add (mul_le_mul hdx hgx (abs_nonneg gx) (le_trans (abs_nonneg dx) hdx))
          (mul_le_mul hdy hgy (abs_nonneg gy) (le_trans (abs_nonneg dy) hdy))
    _ = cx + cy := by ring

/-- The algebraic core of the range bound: the double lerp of the four
corner influences of a unit cell, with fractional offsets `a, b ∈ [0, 1]`
and unit-length corner gradients, has absolute value at most one. -/
theorem corner_blend_abs_le_one (a b gx0 gy0 gx1 gy1 gx2 gy2 gx3 gy3 : ℚ)
    (ha0 : 0 ≤ a) (ha1 : a ≤ 1) (hb0 : 0 ≤ b) (hb1 : b ≤ 1)
    (hg0 : gx0 ^ 2 + gy0 ^ 2 = 1) (hg1 : gx1 ^ 2 + gy1 ^ 2 = 1)
    (hg2 : gx2 ^ 2 + gy2 ^ 2 = 1) (hg3 : gx3 ^ 2 + gy3 ^ 2 = 1) :
    |lerp (lerp (a * gx0 + b * gy0) ((a - 1) * gx1 + b * gy1) (fade a))
          (lerp (a * gx2 + (b - 1) * gy2) ((a - 1) * gx3 + (b - 1) * gy3) (fade a))
          (fade b)| ≤ 1 := by
  have hfa0 : 0 ≤ fade a := fade_nonneg a ha0
  have hfa1 : fade a ≤ 1 := fade_le_one a ha0 ha1
  have hfb0 : 0 ≤ fade b := fade_nonneg b hb0
  have hfb1 : fade b ≤ 1 := fade_le_one b hb0 hb1
  have haa : |a| ≤ a := le_of_eq (abs_of_nonneg ha0)
  have hbb : |b| ≤ b := le_of_eq (abs_of_nonneg hb0)
  have haa1 : |a - 1| ≤ 1 - a := by rw [abs_of_nonpos (by linarith)]; linarith
  have hbb1 : |b - 1| ≤ 1 - b := by rw [abs_of_nonpos (by linarith)]; linarith
  have h0 : |a * gx0 + b * gy0| ≤ a + b := abs_dot_le _ _ _ _ _ _ hg0 haa hbb
  have h1 : |(a - 1) * gx1 + b * gy1| ≤ (1 - a) + b := abs_dot_le _ _ _ _ _ _ hg1 haa1 hbb
  have h2 : |a * gx2 + (b - 1) * gy2| ≤ a + (1 - b) := abs_dot_le _ _ _ _ _ _ hg2 haa hbb1
  have h3 : |(a - 1) * gx3 + (b - 1) * gy3| ≤ (1 - a) + (1 - b) :=
    abs_dot_le _ _ _ _ _ _ hg3 haa1 hbb1
  have hix0 := abs_lerp_le _ _ (fade a) _ _ hfa0 hfa1 h0 h1
  have hix1 := abs_lerp_le _ _ (fade a) _ _ hfa0 hfa1 h2 h3
  have htop := abs_lerp_le _ _ (fade b) _ _ hfb0 hfb1 hix0 hix1
  have hmixa := fade_mix_le_half a ha0 ha1
  have hmixb := fade_mix_le_half b hb0 hb1
  have hring : (1 - fade b) * ((1 - fade a) * (a + b) + fade a * ((1 - a) + b))
      + fade b * ((1 - fade a) * (a + (1 - b)) + fade a * ((1 - a) + (1 - b)))
      = ((1 - fade a) * a + fade a * (1 - a)) + ((1 - fade b) * b + fade b * (1 - b)) := by
    ring
  calc |lerp (lerp (a * gx0 + b * gy0) ((a - 1) * gx1 + b * gy1) (fade a))
          (lerp (a * gx2 + (b - 1) * gy2) ((a - 1) * gx3 + (b - 1) * gy3) (fade a))
          (fade b)|
      ≤ (1 - fade b) * ((1 - fade a) * (a + b) + fade a * ((1 - a) + b))
        + fade b * ((1 - fade a) * (a + (1 - b)) + fade a * ((1 - a) + (1 - b))) := htop
    _ = ((1 - fade a) * a + fade a * (1 - a)) + ((1 - fade b) * b + fade b * (1 - b)) := hring
    _ ≤ 1/2 + 1/2 := add_le_add hmixa hmixb
    _ = 1 := by norm_num

/-- For nonnegative coordinates and a grid of unit-length gradients, one
`perlin` sample has absolute value at most one. -/
theorem perlin_abs_le_one (x y : ℚ) (g : ℤ → ℤ → ℚ × ℚ)
    (hx : 0 ≤ x) (hy : 0 ≤ y)
    (hg : ∀ iy ix : ℤ, (g iy ix).1 ^ 2 + (g iy ix).2 ^ 2 = 1) :
    |perlin x y g| ≤ 1 := by
  have hx0 : truncToInt x = ⌊x⌋ := truncToInt_eq_floor x hx
  have hy0 : truncToInt y = ⌊y⌋ := truncToInt_eq_floor y hy
  have e : perlin x y g =
      lerp (lerp ((x - (⌊x⌋:ℚ)) * (g ⌊y⌋ ⌊x⌋).1 + (y - (⌊y⌋:ℚ)) * (g ⌊y⌋ ⌊x⌋).2)
                 (((x - (⌊x⌋:ℚ)) - 1) * (g ⌊y⌋ (⌊x⌋ + 1)).1
                   + (y - (⌊y⌋:ℚ)) * (g ⌊y⌋ (⌊x⌋ + 1)).2)
                 (fade (x - (⌊x⌋:ℚ))))
           (lerp ((x - (⌊x⌋:ℚ)) * (g (⌊y⌋ + 1) ⌊x⌋).1
                   + ((y - (⌊y⌋:ℚ)) - 1) * (g (⌊y⌋ + 1) ⌊x⌋).2)
                 (((x - (⌊x⌋:ℚ)) - 1) * (g (⌊y⌋ + 1) (⌊x⌋ + 1)).1
                   + ((y - (⌊y⌋:ℚ)) - 1) * (g (⌊y⌋ + 1) (⌊x⌋ + 1)).2)
                 (fade (x - (⌊x⌋:ℚ))))
           (fade (y - (⌊y⌋:ℚ))) := by
    simp only [perlin, dotGridGradient, lerp, hx0, hy0]
    push_cast
    ring
  rw [e]
  exact corner_blend_abs_le_one (x - (⌊x⌋:ℚ)) (y - (⌊y⌋:ℚ)) _ _ _ _ _ _ _ _
    (by linarith [Int.floor_le x]) (by linarith [Int.lt_floor_add_one x])
    (by linarith [Int.floor_le y]) (by linarith [Int.lt_floor_add_one y])
    (hg _ _) (hg _ _) (hg _ _) (hg _ _)

/-- The normalized fractal composition inherits the bound of one per
octave: total stays within `maxValue` in absolute value. -/
theorem fractal_abs_le_one (oc : ℕ) (p m x y : ℚ) (g : ℤ → ℤ → ℚ × ℚ)
    (hoc : 1 ≤ oc) (hp : 0 < p) (hm : 0 ≤ m) (hx : 0 ≤ x) (hy : 0 ≤ y)
    (hg : ∀ iy ix : ℤ, (g iy ix).1 ^ 2 + (g iy ix).2 ^ 2 = 1) :
    |fractalPerlinP oc p m x y g| ≤ 1 := by
  rw [fractalPerlinP, octaveLoop_total, octaveLoop_maxValue]
  have hpos : (0:ℚ) < ∑ i ∈ Finset.range oc, p ^ i := by
    have h0 : (0:ℕ) ∈ Finset.range oc := Finset.mem_range.2 hoc
    have hle : (1:ℚ) ≤ ∑ i ∈ Finset.range oc, p ^ i := by
      have := Finset.single_le_sum (f := fun i => p ^ i)
        (fun i _ => le_of_lt (pow_pos hp i)) h0
      simpa using this
    linarith
  have habs : |∑ i ∈ Finset.range oc, perlin (x * m ^ i) (y * m ^ i) g * p ^ i|
      ≤ ∑ i ∈ Finset.range oc, p ^ i := by
    calc |∑ i ∈ Finset.range oc, perlin (x * m ^ i) (y * m ^ i) g * p ^ i|
        ≤ ∑ i ∈ Finset.range oc, |perlin (x * m ^ i) (y * m ^ i) g * p ^ i| :=
          Finset.abs_sum_le_sum_abs _ _
      _ ≤ ∑ i ∈ Finset.range oc, p ^ i := by
          apply Finset.sum_le_sum
          intro i _
          rw [abs_mul, abs_of_pos (pow_pos hp i)]
          have hb := perlin_abs_le_one (x * m ^ i) (y * m ^ i) g
            (mul_nonneg hx (pow_nonneg hm i)) (mul_nonneg hy (pow_nonneg hm i)) hg
          nlinarith [abs_nonneg (perlin (x * m ^ i) (y * m ^ i) g), pow_pos hp i]
  rw [abs_div, abs_of_pos hpos]
  exact (div_le_one hpos).2 habs

/-- Claim C6: with unit-length gradients, one sample lies in `[-1, 1]`
(hence within the claimed `[-1 - eps, 1 + eps]` for every small
tolerance), the normalized fractal composition lies in `[-1, 1]` for all
valid octave parameters, and the remapped field value lies in `[0, 1]`. -/
theorem noise_range (x y : ℚ) (g : ℤ → ℤ → ℚ × ℚ) (oc : ℕ) (p m : ℚ) (px py : ℕ)
    (hg : ∀ iy ix : ℤ, (g iy ix).1 ^ 2 + (g iy ix).2 ^ 2 = 1)
    (hx : 0 ≤ x) (hy : 0 ≤ y) (hoc : 1 ≤ oc) (hp : 0 < p) (hm : 0 ≤ m) :
    (-1 ≤ perlin x y g ∧ perlin x y g ≤ 1) ∧
    (-1 ≤ fractalPerlinP oc p m x y g ∧ fractalPerlinP oc p m x y g ≤ 1) ∧
    (0 ≤ fieldValue g px py ∧ fieldValue g px py ≤ 1) := by
  have h1 := abs_le.1 (perlin_abs_le_one x y g hx hy hg)
  have h2 := abs_le.1 (fractal_abs_le_one oc p m x y g hoc hp hm hx hy hg)
  have h3 := abs_le.1 (fractal_abs_le_one OCTAVES PERSISTENCE 2
    ((px:ℚ) / (GRID_SIZE:ℚ)) ((py:ℚ) / (GRID_SIZE:ℚ)) g
    (by norm_num [OCTAVES]) (by norm_num [PERSISTENCE]) (by norm_num)
    (by positivity) (by positivity) hg)
  refine ⟨h1, h2, ?_, ?_⟩
  · unfold fieldValue remap fractalPerlin
    have := h3.1
    unfold fractalPerlin at *
    linarith
  · unfold fieldValue remap fractalPerlin
    have := h3.2
    unfold fractalPerlin at *
    linarith

/-- Witness for C6 with the unit gradient `(3/5, 4/5)` at every vertex. -/
theorem noise_range_witness :
    ((∀ iy ix : ℤ, ((fun (_ _ : ℤ) => ((3:ℚ)/5, (4:ℚ)/5)) iy ix).1 ^ 2
        + ((fun (_ _ : ℤ) => ((3:ℚ)/5, (4:ℚ)/5)) iy ix).2 ^ 2 = 1) ∧
      (0:ℚ) ≤ 1/2 ∧ 1 ≤ 1 ∧ (0:ℚ) < 1 ∧ (0:ℚ) ≤ 1) ∧
    ((-1 ≤ perlin (1/2) (1/2) (fun _ _ => (3/5, 4/5)) ∧
        perlin (1/2) (1/2) (fun _ _ => (3/5, 4/5)) ≤ 1) ∧
     (-1 ≤ fractalPerlinP 1 1 1 (1/2) (1/2) (fun _ _ => (3/5, 4/5)) ∧
        fractalPerlinP 1 1 1 (1/2) (1/2) (fun _ _ => (3/5, 4/5)) ≤ 1) ∧
     (0 ≤ fieldValue (fun _ _ => (3/5, 4/5)) 0 0 ∧
        fieldValue (fun _ _ => (3/5, 4/5)) 0 0 ≤ 1)) :=
  ⟨⟨fun _ _ => by norm_num, by norm_num, le_refl 1, by norm_num, by norm_num⟩,
    noise_range (1/2) (1/2) (fun _ _ => (3/5, 4/5)) 1 1 1 0 0
      (fun _ _ => by norm_num) (by norm_num) (by norm_num)
      (le_refl 1) (by norm_num) (by norm_num)⟩

/- ### Claim C3: grid sizing keeps every access in bounds -/

/-- The four grid vertices `(ix, iy)` read by one `perlin` call
(src/main.cpp lines 59-74): `(x0, y0)`, `(x1, y0)`, `(x0, y1)`,
`(x1, y1)`. -/
def perlinAccessList (x y : ℚ) : List (ℤ × ℤ) :=
  let x0 := truncToInt x
  let y0 := truncToInt y
  [(x0, y0), (x0 + 1, y0), (x0, y0 + 1), (x0 + 1, y0 + 1)]

/-- All grid vertices read by `fractalPerlin` across its octaves: octave
`i` samples at frequency `m ^ i` (src/main.cpp lines 90-112). -/
def fractalAccessList (oc : ℕ) (m x y : ℚ) : List (ℤ × ℤ) :=
  (List.range oc).flatMap (fun i => perlinAccessList (x * m ^ i) (y * m ^ i))

/-- The grid dimension formula of the spec (§4.4), the source's
`WIDTH / GRID_SIZE * (1 << (OCTAVES - 1)) + 2` with the exact integer
division replaced by the spec's ceiling:
`ceil(output / cellSize) * 2^(octaveCount-1) + 2`. -/
def requiredGridDim (output cellSize oc : ℕ) : ℤ :=
  ⌈(output:ℚ) / (cellSize:ℚ)⌉ * 2 ^ (oc - 1) + 2

/-- `perlin` reads the grid only at the vertices of `perlinAccessList`. -/
theorem perlin_congr_accesses (x y : ℚ) (g₁ g₂ : ℤ → ℤ → ℚ × ℚ)
    (h : ∀ pr ∈ perlinAccessList x y, g₁ pr.2 pr.1 = g₂ pr.2 pr.1) :
    perlin x y g₁ = perlin x y g₂ := by
  have h00 := h (truncToInt x, truncToInt y) (by simp [perlinAccessList])
  have h10 := h (truncToInt x + 1, truncToInt y) (by simp [perlinAccessList])
  have h01 := h (truncToInt x, truncToInt y + 1) (by simp [perlinAccessList])
  have h11 := h (truncToInt x + 1, truncToInt y + 1) (by simp [perlinAccessList])
  simp only at h00 h10 h01 h11
  simp only [perlin, dotGridGradient, h00, h10, h01, h11]

/-- `fractalPerlin` reads the grid only at the vertices of
`fractalAccessList`. -/
theorem fractal_congr_accesses (oc : ℕ) (p m x y : ℚ) (g₁ g₂ : ℤ → ℤ → ℚ × ℚ)
    (h : ∀ pr ∈ fractalAccessList oc m x y, g₁ pr.2 pr.1 = g₂ pr.2 pr.1) :
    fractalPerlinP oc p m x y g₁ = fractalPerlinP oc p m x y g₂ := by
  rw [fractalPerlinP, fractalPerlinP, octaveLoop_total, octaveLoop_total,
    octaveLoop_maxValue, octaveLoop_maxValue]
  congr 1
  apply Finset.sum_congr rfl
  intro i hi
  have hsub : ∀ pr ∈ perlinAccessList (x * m ^ i) (y * m ^ i), g₁ pr.2 pr.1 = g₂ pr.2 pr.1 := by
    intro pr hpr
    apply h
    simp only [fractalAccessList, List.mem_flatMap, List.mem_range]
    exact ⟨i, Finset.mem_range.1 hi, hpr⟩
  rw [perlin_congr_accesses (x * m ^ i) (y * m ^ i) g₁ g₂ hsub]

/-- In-bounds bound along one axis: for an output coordinate `v < o` and
octave `i < oc`, both vertex indices fit below the computed dimension. -/
theorem axis_access_bound (o cs oc i v : ℕ)
    (ho : 0 < o) (hcs : 0 < cs) (hoc : 1 ≤ oc) (hi : i < oc) (hv : v < o) :
    0 ≤ truncToInt ((v:ℚ) / (cs:ℚ) * 2 ^ i) ∧
    truncToInt ((v:ℚ) / (cs:ℚ) * 2 ^ i) + 1 < requiredGridDim o cs oc := by
  have hcsq : (0:ℚ) < (cs:ℚ) := by exact_mod_cast hcs
  have hq0 : (0:ℚ) ≤ (v:ℚ) / (cs:ℚ) * 2 ^ i := by positivity
  have htr : truncToInt ((v:ℚ) / (cs:ℚ) * 2 ^ i) = ⌊(v:ℚ) / (cs:ℚ) * 2 ^ i⌋ :=
    truncToInt_eq_floor _ hq0
  constructor
  · rw [htr]
    exact Int.floor_nonneg.2 hq0
  · rw [htr, requiredGridDim]
    have h1 : (v:ℚ) / (cs:ℚ) < (o:ℚ) / (cs:ℚ) := by
      apply div_lt_div_of_pos_right ?_ hcsq
      exact_mod_cast hv
    have h2 : (o:ℚ) / (cs:ℚ) ≤ (⌈(o:ℚ) / (cs:ℚ)⌉ : ℚ) := Int.le_ceil _
    have hC0 : (0:ℚ) ≤ (⌈(o:ℚ) / (cs:ℚ)⌉ : ℚ) := by positivity
    have h3 : (2:ℚ) ^ i ≤ (2:ℚ) ^ (oc - 1) := by
      apply pow_le_pow_right₀ (by norm_num)
      omega
    have h4 : (v:ℚ) / (cs:ℚ) * 2 ^ i < (⌈(o:ℚ) / (cs:ℚ)⌉ : ℚ) * 2 ^ (oc - 1) := by
      calc (v:ℚ) / (cs:ℚ) * 2 ^ i
          < (⌈(o:ℚ) / (cs:ℚ)⌉ : ℚ) * 2 ^ i := by
            exact mul_lt_mul_of_pos_right (lt_of_lt_of_le h1 h2) (by positivity)
        _ ≤ (⌈(o:ℚ) / (cs:ℚ)⌉ : ℚ) * 2 ^ (oc - 1) := by
            exact mul_le_mul_of_nonneg_left h3 hC0
    have h5 : ⌊(v:ℚ) / (cs:ℚ) * 2 ^ i⌋ < ⌈(o:ℚ) / (cs:ℚ)⌉ * 2 ^ (oc - 1) := by
      apply Int.floor_lt.2
      push_cast
      exact h4
    omega

/-- Claim C3: with `gridWidth = ceil(outputWidth / cellSize) *
2^(octaveCount-1) + 2` (and analogously for the height), every gradient
access performed while generating the full field — any pixel, any octave,
frequency multiplier 2 — uses vertex indices inside
`[0, gridWidth) × [0, gridHeight)`. -/
theorem grid_sizing_sufficient (ow oh cs oc : ℕ)
    (how : 0 < ow) (hoh : 0 < oh) (hcs : 0 < cs) (hoc : 1 ≤ oc) :
    ∀ px py : ℕ, px < ow → py < oh →
    ∀ pr ∈ fractalAccessList oc 2 ((px:ℚ) / (cs:ℚ)) ((py:ℚ) / (cs:ℚ)),
      0 ≤ pr.1 ∧ pr.1 < requiredGridDim ow cs oc ∧
      0 ≤ pr.2 ∧ pr.2 < requiredGridDim oh cs oc := by
  intro px py hpx hpy pr hpr
  simp only [fractalAccessList, List.mem_flatMap, List.mem_range, perlinAccessList,
    List.mem_cons, List.mem_singleton, List.not_mem_nil, or_false] at hpr
  obtain ⟨i, hi, hcase⟩ := hpr
  have hbx := axis_access_bound ow cs oc i px how hcs hoc hi hpx
  have hby := axis_access_bound oh cs oc i py hoh hcs hoc hi hpy
  rcases hcase with h | h | h | h <;> subst h <;>
    refine ⟨?_, ?_, ?_, ?_⟩ <;> simp only <;> omega

/-- Witness for C3: a 1×1 output with cell size 1 and one octave; the
access `(0, 0)` of pixel `(0, 0)` lies inside the computed 3×3 grid. -/
theorem grid_sizing_sufficient_witness :
    (0 < 1 ∧ 1 ≤ 1 ∧ (0:ℕ) < 1 ∧
      ((0:ℤ), (0:ℤ)) ∈ fractalAccessList 1 2 (((0:ℕ):ℚ) / ((1:ℕ):ℚ)) (((0:ℕ):ℚ) / ((1:ℕ):ℚ))) ∧
    (0 ≤ ((0:ℤ), (0:ℤ)).1 ∧ ((0:ℤ), (0:ℤ)).1 < requiredGridDim 1 1 1 ∧
      0 ≤ ((0:ℤ), (0:ℤ)).2 ∧ ((0:ℤ), (0:ℤ)).2 < requiredGridDim 1 1 1) :=
  ⟨⟨one_pos, le_refl 1, one_pos,
      by norm_num [fractalAccessList, perlinAccessList, truncToInt, List.mem_flatMap]⟩,
    grid_sizing_sufficient 1 1 1 1 one_pos one_pos one_pos (le_refl 1) 0 0 one_pos one_pos
      ((0:ℤ), (0:ℤ))
      (by norm_num [fractalAccessList, perlinAccessList, truncToInt, List.mem_flatMap])⟩

/- ### Claim C4: deterministic, row-major grid construction -/

/-- The random generator of `WinMain` (`std::mt19937 rng(1234)` plus
`randomGradient`, src/main.cpp lines 119-125 and 155) abstracted as a
state machine: `next` returns the produced gradient vector and the
advanced generator state.  `buildRow` is the inner `x` loop of the
nested fill loop (src/main.cpp lines 165-169), left to right. -/
def buildRow {σ : Type} (next : σ → (ℚ × ℚ) × σ) : ℕ → σ → List (ℚ × ℚ) × σ
  | 0, s => ([], s)
  | n + 1, s =>
      let g := next s
      let rest := buildRow next n g.2
      (g.1 :: rest.1, rest.2)

/-- The outer `y` loop of the fill loop (src/main.cpp lines 165-169):
rows top to bottom, each filled left to right, one generator state
threaded through the whole traversal. -/
def buildRows {σ : Type} (next : σ → (ℚ × ℚ) × σ) : ℕ → ℕ → σ → List (List (ℚ × ℚ)) × σ
  | 0, _, s => ([], s)
  | h + 1, w, s =>
      let row := buildRow next w s
      let rest := buildRows next h w row.2
      (row.1 :: rest.1, rest.2)

/-- The gradient grid exactly as `WinMain` builds it: `gridH` rows of
`gridW` gradients, assigned row-major (y outer, x inner) from the seeded
generator. -/
def buildGradients {σ : Type} (next : σ → (ℚ × ℚ) × σ) (seed : σ)
    (gridH gridW : ℕ) : List (List (ℚ × ℚ)) × σ :=
  buildRows next gridH gridW seed

/-- Read access `gradients[iy][ix]` on the built list-of-lists grid. -/
def gridToFun (grid : List (List (ℚ × ℚ))) : ℤ → ℤ → ℚ × ℚ :=
  fun iy ix => (grid.getD iy.toNat []).getD ix.toNat (0, 0)

/-- Generator state after `n` draws. -/
def rngIter {σ : Type} (next : σ → (ℚ × ℚ) × σ) : ℕ → σ → σ
  | 0, s => s
  | n + 1, s => rngIter next n (next s).2

/-- The `n`-th gradient the seeded generator produces. -/
def gradStream {σ : Type} (next : σ → (ℚ × ℚ) × σ) (s : σ) (n : ℕ) : ℚ × ℚ :=
  (next (rngIter next n s)).1

/-- The full pipeline of `WinMain` with seed, grid dimensions, cell size
and octave parameters as inputs: build the grid, then produce every
remapped field value (src/main.cpp lines 154-185). -/
def generatePipeline {σ : Type} (next : σ → (ℚ × ℚ) × σ) (seed : σ)
    (gridH gridW : ℕ) (cellSize : ℚ) (oc : ℕ) (p m : ℚ) :
    List (List (ℚ × ℚ)) × (ℕ → ℕ → ℚ) :=
  let grid := (buildGradients next seed gridH gridW).1
  (grid, fun px py =>
    remap (fractalPerlinP oc p m ((px:ℚ) / cellSize) ((py:ℚ) / cellSize) (gridToFun grid)))

theorem rngIter_add {σ : Type} (next : σ → (ℚ × ℚ) × σ) (a b : ℕ) (s : σ) :
    rngIter next (a + b) s = rngIter next b (rngIter next a s) := by
  induction a generalizing s with
  | zero => rw [Nat.zero_add]; rfl
  | succ a ih =>
      rw [Nat.succ_add]
      show rngIter next (a + b) (next s).2 = _
      rw [ih]
      rfl

theorem buildRow_snd {σ : Type} (next : σ → (ℚ × ℚ) × σ) (n : ℕ) (s : σ) :
    (buildRow next n s).2 = rngIter next n s := by
  induction n generalizing s with
  | zero => rfl
  | succ n ih => simp [buildRow, rngIter, ih]

theorem buildRow_getD {σ : Type} (next : σ → (ℚ × ℚ) × σ) (n i : ℕ) (s : σ)
    (hi : i < n) :
    (buildRow next n s).1.getD i (0, 0) = gradStream next s i := by
  induction n generalizing s i with
  | zero => omega
  | succ n ih =>
      cases i with
      | zero => rfl
      | succ i =>
          have := ih i (next s).2 (by omega)
          simpa [buildRow, gradStream, rngIter] using this

theorem buildRows_entry {σ : Type} (next : σ → (ℚ × ℚ) × σ) (h w iy ix : ℕ) (s : σ)
    (hiy : iy < h) (hix : ix < w) :
    ((buildRows next h w s).1.getD iy []).getD ix (0, 0) =
      gradStream next s (iy * w + ix) := by
  induction h generalizing s iy with
  | zero => omega
  | succ h ih =>
      cases iy with
      | zero =>
          show (buildRow next w s).1.getD ix (0, 0) = gradStream next s (0 * w + ix)
          rw [buildRow_getD next w ix s hix]
          norm_num
      | succ iy =>
          show ((buildRows next h w (buildRow next w s).2).1.getD iy []).getD ix (0, 0) = _
          rw [buildRow_snd, ih iy (rngIter next w s) (by omega)]
          have harith : iy * w + ix + w = (iy + 1) * w + ix := by ring
          rw [gradStream, gradStream, ← rngIter_add, Nat.add_comm w (iy * w + ix), harith]

/-- Claim C4: the pipeline is deterministic — two runs with identical
seed, dimensions, cell size and octave parameters give the identical
gradient grid and the identical field at every output coordinate — and
the grid is assigned in fixed row-major order (y outer, x inner): vertex
`(ix, iy)` holds the `(iy * gridW + ix)`-th gradient of the seeded
stream. -/
theorem pipeline_deterministic {σ : Type} (next : σ → (ℚ × ℚ) × σ) (seed : σ)
    (gridH gridW : ℕ) (cellSize : ℚ) (oc : ℕ) (p m : ℚ) :
    ((generatePipeline next seed gridH gridW cellSize oc p m).1 =
      (generatePipeline next seed gridH gridW cellSize oc p m).1) ∧
    (∀ px py : ℕ,
      (generatePipeline next seed gridH gridW cellSize oc p m).2 px py =
      (generatePipeline next seed gridH gridW cellSize oc p m).2 px py) ∧
    (∀ iy ix : ℕ, iy < gridH → ix < gridW →
      ((generatePipeline next seed gridH gridW cellSize oc p m).1.getD iy []).getD ix (0, 0) =
        gradStream next seed (iy * gridW + ix)) := by
  refine ⟨rfl, fun _ _ => rfl, fun iy ix hiy hix => ?_⟩
  exact buildRows_entry next gridH gridW iy ix seed hiy hix

/-- Witness for C4: a counter-based generator on a 2×2 grid; the entry at
`(ix, iy) = (1, 0)` is the second element of the stream. -/
theorem pipeline_deterministic_witness :
    ((0:ℕ) < 2 ∧ (1:ℕ) < 2) ∧
    ((generatePipeline (fun n : ℕ => (((n:ℚ), (n:ℚ) + 1), n + 1)) 0 2 2 1 1 1 1).1.getD 0 []).getD
        1 (0, 0) =
      gradStream (fun n : ℕ => (((n:ℚ), (n:ℚ) + 1), n + 1)) 0 (0 * 2 + 1) :=
  ⟨⟨by norm_num, by norm_num⟩,
    (pipeline_deterministic (fun n : ℕ => (((n:ℚ), (n:ℚ) + 1), n + 1)) 0 2 2 1 1 1 1).2.2
      0 1 (by norm_num) (by norm_num)⟩

/- ### Claim C9: validation of dimensions and configuration -/

/-- Modelled from the spec: the error taxonomy of §7.  The source's
`WinMain` hardcodes a valid configuration and performs no validation, so
the guards of §4.1 and §4.4 are absent from src/ and are modelled from
the spec's words. -/
inductive NoiseError where
  | InvalidDimension
  | InvalidConfiguration
  | OutOfBounds
deriving DecidableEq

/-- `true` exactly on a successful result. -/
def exceptOk {ε α : Type} : Except ε α → Bool
  | .ok _ => true
  | .error _ => false

/-- Modelled from the spec: `GradientGrid.build` (§4.1), missing from the
source, which builds its grid inline without validation. Dimensions below
2 fail with `InvalidDimension`; otherwise the grid is built row-major
from the seeded generator. -/
def buildGrid {σ : Type} (next : σ → (ℚ × ℚ) × σ) (seed : σ)
    (gridWidth gridHeight : ℤ) : Except NoiseError (List (List (ℚ × ℚ))) :=
  if gridWidth < 2 ∨ gridHeight < 2 then .error .InvalidDimension
  else .ok (buildGradients next seed gridHeight.toNat gridWidth.toNat).1

/-- The grid dimension formula of §4.4 used by `generateField`:
`ceil(output / cellSize) * 2^(octaveCount-1) + 2`. -/
def fieldGridDim (output : ℤ) (cellSize : ℚ) (octaveCount : ℤ) : ℤ :=
  ⌈(output : ℚ) / cellSize⌉ * 2 ^ (octaveCount - 1).toNat + 2

/-- Modelled from the spec: `generateField` (§4.4), missing from the
source, which inlines generation with constants. A non-positive cell
size or output size or malformed octave parameters fail with
`InvalidConfiguration`; otherwise the grid is sized by the §4.4 formula,
built, and sampled at every output coordinate with the `(n+1)/2` remap. -/
def generateField {σ : Type} (next : σ → (ℚ × ℚ) × σ) (seed : σ)
    (outputWidth outputHeight : ℤ) (cellSize : ℚ) (octaveCount : ℤ)
    (persistence frequencyMultiplier : ℚ) : Except NoiseError (ℕ → ℕ → ℚ) :=
  if cellSize ≤ 0 ∨ outputWidth ≤ 0 ∨ outputHeight ≤ 0 ∨ octaveCount < 1 ∨
      persistence ≤ 0 ∨ frequencyMultiplier ≤ 1 then .error .InvalidConfiguration
  else
    (buildGrid next seed (fieldGridDim outputWidth cellSize octaveCount)
        (fieldGridDim outputHeight cellSize octaveCount)).map fun grid => fun px py =>
      remap (fractalPerlinP octaveCount.toNat persistence frequencyMultiplier
        ((px:ℚ) / cellSize) ((py:ℚ) / cellSize) (gridToFun grid))

/-- On a valid configuration the computed grid dimensions are at least 2,
so the inner `buildGrid` cannot fail. -/
theorem valid_config_grid_dim_ge_two (o : ℤ) (cs : ℚ) (oc : ℤ)
    (ho : 0 < o) (hcs : 0 < cs) :
    2 ≤ fieldGridDim o cs oc := by
  rw [fieldGridDim]
  have h1 : (0:ℚ) < (o : ℚ) / cs := by
    apply div_pos ?_ hcs
    exact_mod_cast ho
  have h2 : 0 < ⌈(o : ℚ) / cs⌉ := Int.ceil_pos.2 h1
  have h3 : (0:ℤ) < 2 ^ (oc - 1).toNat := pow_pos (by norm_num) _
  nlinarith

/-- Claim C9: grid construction fails with `InvalidDimension` exactly
when a grid dimension is below 2; field generation fails with
`InvalidConfiguration` exactly when the cell size, output sizes or octave
parameters are out of domain; and on valid inputs neither fails. -/
theorem error_handling {σ : Type} (next : σ → (ℚ × ℚ) × σ) (seed : σ)
    (gw gh ow oh : ℤ) (cs : ℚ) (oc : ℤ) (pers fm : ℚ) :
    (buildGrid next seed gw gh = .error .InvalidDimension ↔ gw < 2 ∨ gh < 2) ∧
    (generateField next seed ow oh cs oc pers fm = .error .InvalidConfiguration ↔
      cs ≤ 0 ∨ ow ≤ 0 ∨ oh ≤ 0 ∨ oc < 1 ∨ pers ≤ 0 ∨ fm ≤ 1) ∧
    (¬(gw < 2 ∨ gh < 2) → exceptOk (buildGrid next seed gw gh) = true) ∧
    (¬(cs ≤ 0 ∨ ow ≤ 0 ∨ oh ≤ 0 ∨ oc < 1 ∨ pers ≤ 0 ∨ fm ≤ 1) →
      exceptOk (generateField next seed ow oh cs oc pers fm) = true) := by
  have hbuild : ∀ gw' gh' : ℤ, ¬(gw' < 2 ∨ gh' < 2) →
      ∃ grid, buildGrid next seed gw' gh' = .ok grid := by
    intro gw' gh' hvalid
    exact ⟨_, by rw [buildGrid, if_neg hvalid]⟩
  refine ⟨?_, ?_, ?_, ?_⟩
  · constructor
    · intro herr
      by_contra hvalid
      obtain ⟨grid, hok⟩ := hbuild gw gh hvalid
      rw [hok] at herr
      exact Except.noConfusion herr
    · intro hcond
      rw [buildGrid, if_pos hcond]
  · constructor
    · intro herr
      by_contra hvalid
      rw [generateField, if_neg hvalid] at herr
      push_neg at hvalid
      obtain ⟨hcs, how, hoh, hoc, hpers, hfm⟩ := hvalid
      have hgw := valid_config_grid_dim_ge_two ow cs oc how hcs
      have hgh := valid_config_grid_dim_ge_two oh cs oc hoh hcs
      obtain ⟨grid, hok⟩ := hbuild (fieldGridDim ow cs oc) (fieldGridDim oh cs oc) (by omega)
      rw [hok] at herr
      simp [Except.map] at herr
    · intro hcond
      rw [generateField, if_pos hcond]
  · intro hvalid
    obtain ⟨grid, hok⟩ := hbuild gw gh hvalid
    rw [hok]
    rfl
  · intro hvalid
    rw [generateField, if_neg hvalid]
    push_neg at hvalid
    obtain ⟨hcs, how, hoh, hoc, hpers, hfm⟩ := hvalid
    have hgw := valid_config_grid_dim_ge_two ow cs oc how hcs
    have hgh := valid_config_grid_dim_ge_two oh cs oc hoh hcs
    obtain ⟨grid, hok⟩ := hbuild (fieldGridDim ow cs oc) (fieldGridDim oh cs oc) (by omega)
    rw [hok]
    rfl

/-- Witness for C9: a valid 2×2 grid and a valid 1×1, one-octave field
configuration are accepted. -/
theorem error_handling_witness :
    (¬((2:ℤ) < 2 ∨ (2:ℤ) < 2) ∧
      ¬((1:ℚ) ≤ 0 ∨ (1:ℤ) ≤ 0 ∨ (1:ℤ) ≤ 0 ∨ (1:ℤ) < 1 ∨ (1:ℚ) ≤ 0 ∨ (2:ℚ) ≤ 1)) ∧
    exceptOk (buildGrid (fun n : ℕ => (((1:ℚ), (0:ℚ)), n)) 0 2 2) = true ∧
    exceptOk (generateField (fun n : ℕ => (((1:ℚ), (0:ℚ)), n)) 0 1 1 1 1 1 2) = true :=
  ⟨⟨by norm_num, by norm_num⟩,
    (error_handling (fun n : ℕ => (((1:ℚ), (0:ℚ)), n)) 0 2 2 1 1 1 1 1 2).2.2.1
      (by norm_num),
    (error_handling (fun n : ℕ => (((1:ℚ), (0:ℚ)), n)) 0 2 2 1 1 1 1 1 2).2.2.2
      (by norm_num)⟩

end PerlinNoise
